import Mathlib

/-!
Shallow embedding of the EC2 external inventory script
(src/playbooks/ec2.py) and theorems checking the specification's
claims about it.  The grouping engine (add_instance,
add_rds_instance, push, keep_first, to_safe), the cache store
(is_cache_valid, write_to_cache, json_format_dict) and the query
facade (do_api_calls_update_cache, get_instances_by_region,
get_rds_instances_by_region, get_host_info) are translated
definition by definition; the boto provider is modelled as an
explicit environment (Cloud) whose per-region calls can return a
null connection, raise a server error, or succeed with a list of
records, mirroring the three outcomes the script distinguishes.
-/

namespace EC2Inv

/-- A JSON value as produced by json.dumps.  Objects carry an explicit
entry list; json.dumps with sort_keys=True is modelled by sorting the
entries by key before wrapping them in `obj`.  Pretty-printing
(indent=2) does not change the represented value and is not modelled. -/
inductive JVal : Type where
  | str (s : String)
  | int (i : Int)
  | bool (b : Bool)
  | arr (elems : List JVal)
  | obj (entries : List (String × JVal))

/-- Python dict lookup.  Dicts are modelled as association lists in
insertion order; the update operations below keep keys unique, so
taking the first matching entry is the dict semantics. -/
def lookup {α : Type} : List (String × α) → String → Option α
  | [], _ => none
  | p :: t, k => if p.1 = k then some p.2 else lookup t k

/-- Python `key in my_dict`. -/
def hasKey {α : Type} : List (String × α) → String → Bool
  | [], _ => false
  | p :: t, k => if p.1 = k then true else hasKey t k

/-- Python dict assignment `my_dict[k] = v`: overwrite the entry in
place when the key is present, otherwise append it (insertion order). -/
def setKey {α : Type} (d : List (String × α)) (k : String) (v : α) : List (String × α) :=
  if hasKey d k then d.map (fun p => if p.1 = k then (p.1, v) else p)
  else d ++ [(k, v)]

/-- Inventory: group name to list of destination endpoints. -/
abbrev Inv := List (String × List String)

/-- Index: endpoint to the pair (region, resource id); the script
stores the two-element list [region, instance.id]. -/
abbrev Idx := List (String × (String × String))

/-- Ec2Inventory.push: append `element` onto the list at `key`,
creating the list when the key is absent. -/
def push (my_dict : Inv) (key element : String) : Inv :=
  if hasKey my_dict key then
    my_dict.map (fun p => if p.1 = key then (p.1, p.2 ++ [element]) else p)
  else my_dict ++ [(key, [element])]

/-- Ec2Inventory.keep_first: create the singleton list at `key` only
when the key is absent; an existing entry is left untouched. -/
def keep_first (my_dict : Inv) (key element : String) : Inv :=
  if hasKey my_dict key then my_dict else my_dict ++ [(key, [element])]

/-- One character of re.sub("[^A-Za-z0-9\\-]", "_", word): a character
kept by the class survives, every other character becomes an
underscore. -/
def safeChar (c : Char) : Char :=
  if ('A' ≤ c ∧ c ≤ 'Z') ∨ ('a' ≤ c ∧ c ≤ 'z') ∨ ('0' ≤ c ∧ c ≤ '9') ∨ c = '-' then c
  else '_'

/-- Ec2Inventory.to_safe: substitute every character outside
A-Za-z0-9 and the hyphen by an underscore. -/
def to_safe (word : String) : String :=
  ⟨word.data.map safeChar⟩

/-- Membership in the character class [A-Za-z0-9_-] of the claimed
output regular expression. -/
def okChar (c : Char) : Bool :=
  decide ((('A' ≤ c ∧ c ≤ 'Z') ∨ ('a' ≤ c ∧ c ≤ 'z') ∨ ('0' ≤ c ∧ c ≤ '9')) ∨ c = '_' ∨ c = '-')

/-- Substring search over character lists, the semantics of Python's
`needle in haystack` on strings. -/
def subList (needle : List Char) : List Char → Bool
  | [] => needle.isEmpty
  | c :: t => needle.isPrefixOf (c :: t) || subList needle t

/-- Python `needle in s` for strings. -/
def hasSub (needle s : String) : Bool :=
  subList needle.data s.data

/-- Lexicographic comparison of character lists by code point, the
order json.dumps(sort_keys=True) sorts object keys in. -/
def leChars : List Char → List Char → Bool
  | [], _ => true
  | _ :: _, [] => false
  | a :: as, b :: bs =>
    if a.toNat < b.toNat then true
    else if b.toNat < a.toNat then false
    else leChars as bs

/-- Insertion step of the key sort. -/
def insertByKey {α : Type} (p : String × α) : List (String × α) → List (String × α)
  | [] => [p]
  | q :: t => if leChars p.1.data q.1.data then p :: q :: t else q :: insertByKey p t

/-- Sort object entries by key, modelling json.dumps(sort_keys=True). -/
def sortByKey {α : Type} : List (String × α) → List (String × α)
  | [] => []
  | p :: t => insertByKey p (sortByKey t)

/-- Ec2Inventory.json_format_dict: when the tags_only option is set the
dict is first replaced by the list of its keys containing "tag_" as a
substring (Python `'tag_' in key`); the result is dumped with sorted
keys.  Note the filter applies to every serialization, whatever dict
is being written. -/
def json_format_dict (tags_only : Bool) (data : List (String × JVal)) : JVal :=
  if tags_only then
    JVal.arr (((data.map Prod.fst).filter (fun k => hasSub "tag_" k)).map JVal.str)
  else JVal.obj (sortByKey data)

/-- Ec2Inventory.write_to_cache: the file named by the caller receives
json_format_dict(data, True); the model returns the written JSON
value (file naming and I/O are outside the embedding). -/
def write_to_cache (tags_only : Bool) (data : List (String × JVal)) : JVal :=
  json_format_dict tags_only data

/-- View an inventory as the dict json.dumps receives. -/
def invToJ (inv : Inv) : List (String × JVal) :=
  inv.map (fun p => (p.1, JVal.arr (p.2.map JVal.str)))

/-- View an index as the dict json.dumps receives: each value is the
two-element list [region, resource id]. -/
def indexToJ (idx : Idx) : List (String × JVal) :=
  idx.map (fun p => (p.1, JVal.arr [JVal.str p.2.1, JVal.str p.2.2]))

/-- A security group record exposing id and name, as used both by the
grouping engine and the host-detail flattening. -/
structure SecGroup where
  id : String
  name : String

/-- A boto compute-instance record as add_instance reads it.  `attr`
models getattr for the configurable destination attributes and the
Route53 address attributes; a boto attribute holding None is `none`. -/
structure Ec2Instance where
  state : String
  subnet_id : Option String
  attr : String → Option String
  id : String
  placement : String
  instance_type : String
  key_name : Option String
  groups : List SecGroup
  tags : List (String × String)

/-- A boto RDS instance record as add_rds_instance reads it; endpoint
is the (address, port) pair, the script uses endpoint[0]. -/
structure RdsInstance where
  status : String
  endpoint : Option String × Int
  id : String
  availability_zone : String
  instance_class : String
  security_group : Option SecGroup
  engine : String
  parameter_group : SecGroup

/-- The mutable aggregation state: self.inventory and self.index. -/
structure AggState where
  inventory : Inv
  index : Idx

/-- The configuration the grouping engine and facade read (from
ec2.ini and the CLI): destination attribute names, the Route53 flag,
the region list and the tags_only flag. -/
structure Config where
  destination_variable : String
  vpc_destination_variable : String
  route53_enabled : Bool
  regions : List String
  tags_only : Bool

/-- Python truthiness of a possibly-None string: None and the empty
string are falsy. -/
def truthy : Option String → Bool
  | none => false
  | some s => s != ""

/-- Destination selection of add_instance: the VPC-scoped attribute
when subnet_id is truthy, the plain destination attribute otherwise. -/
def resolve_dest (cfg : Config) (inst : Ec2Instance) : Option String :=
  if truthy inst.subnet_id then inst.attr cfg.vpc_destination_variable
  else inst.attr cfg.destination_variable

/-- Ec2Inventory.get_instance_route53_names: collect the domain names
whose records point at any of the four address attributes.  The
Python set of names is modelled as a list built with deduplicating
union (iteration order of a set is abstracted). -/
def get_instance_route53_names (records : List (String × List String))
    (inst : Ec2Instance) : List String :=
  ["public_dns_name", "private_dns_name", "ip_address", "private_ip_address"].foldl
    (fun acc a =>
      match inst.attr a with
      | none => acc
      | some v =>
        match lookup records v with
        | none => acc
        | some names => acc ∪ names)
    []

/-- Ec2Inventory.add_instance: skip unless state is "running", skip
when the resolved destination is falsy, otherwise write the index
entry, the group-of-one, and push the region, placement, type, key,
security-group, tag (plus first_in_ via keep_first) and Route53
groups.  `r53` is self.route53_records. -/
def add_instance (cfg : Config) (r53 : List (String × List String))
    (st : AggState) (inst : Ec2Instance) (region : String) : AggState :=
  if inst.state != "running" then st
  else if truthy (resolve_dest cfg inst) = false then st
  else
    let d := (resolve_dest cfg inst).getD ""
    let idx := setKey st.index d (region, inst.id)
    let inv := setKey st.inventory inst.id [d]
    let inv := push inv region d
    let inv := push inv inst.placement d
    let inv := push inv (to_safe ("type_" ++ inst.instance_type)) d
    let inv := if truthy inst.key_name then
        push inv (to_safe ("key_" ++ inst.key_name.getD "")) d
      else inv
    let inv := inst.groups.foldl
      (fun m g => push m (to_safe ("security_group_" ++ g.name)) d) inv
    let inv := inst.tags.foldl
      (fun m kv =>
        keep_first (push m (to_safe ("tag_" ++ kv.1 ++ "=" ++ kv.2)) d)
          ("first_in_" ++ to_safe ("tag_" ++ kv.1 ++ "=" ++ kv.2)) d)
      inv
    let inv := if cfg.route53_enabled then
        (get_instance_route53_names r53 inst).foldl (fun m n => push m n d) inv
      else inv
    { inventory := inv, index := idx }

/-- Ec2Inventory.add_rds_instance: skip unless status is "available",
skip when endpoint[0] is falsy, otherwise write the index entry, the
group-of-one, and push the region, availability zone, type, optional
security group, engine and parameter-group groups. -/
def add_rds_instance (st : AggState) (inst : RdsInstance) (region : String) : AggState :=
  if inst.status != "available" then st
  else if truthy inst.endpoint.1 = false then st
  else
    let d := inst.endpoint.1.getD ""
    let idx := setKey st.index d (region, inst.id)
    let inv := setKey st.inventory inst.id [d]
    let inv := push inv region d
    let inv := push inv inst.availability_zone d
    let inv := push inv (to_safe ("type_" ++ inst.instance_class)) d
    let inv := match inst.security_group with
      | some g => push inv (to_safe ("security_group_" ++ g.name)) d
      | none => inv
    let inv := push inv (to_safe ("rds_" ++ inst.engine)) d
    let inv := push inv (to_safe ("rds_parameter_group_" ++ inst.parameter_group.name)) d
    { inventory := inv, index := idx }

/-- Outcome of a per-region boto connection: connect_to_region
returned None, a BotoServerError was raised during the calls, or the
calls succeeded with a list of records. -/
inductive Conn (α : Type) : Type where
  | noConn
  | serverError
  | ok (xs : List α)

/-- A single flattened boto attribute value, as the host-detail loop
classifies them: int, bool, str, None, a region object (reduced to
its name), a tags dict, a groups list, or any other type (dropped). -/
inductive AttrVal : Type where
  | vInt (i : Int)
  | vBool (b : Bool)
  | vStr (s : String)
  | vNone
  | vRegion (name : String)
  | vTags (ts : List (String × String))
  | vGroups (gs : List SecGroup)
  | vOther

/-- The provider environment: per-region instance listings for EC2 and
RDS, and the single-instance fetch used by get_host_info
(Ec2Inventory.get_instance).  A `none` fetch result covers both a
failed connection (sys.exit) and a missing instance (the script then
crashes on vars(None)); either way the run does not produce output. -/
structure Cloud where
  ec2 : String → Conn Ec2Instance
  rds : String → Conn RdsInstance
  get_instance : String → String → Option (List (String × AttrVal))

/-- Ec2Inventory.get_instances_by_region on the standard (non
eucalyptus) path: a None connection prints and sys.exit(1)s, a
BotoServerError prints and sys.exit(1)s, otherwise every listed
instance is folded through add_instance.  `none` is the aborted run. -/
def get_instances_by_region (cloud : Cloud) (cfg : Config)
    (r53 : List (String × List String)) (st : AggState) (region : String) :
    Option AggState :=
  match cloud.ec2 region with
  | Conn.noConn => none
  | Conn.serverError => none
  | Conn.ok insts => some (insts.foldl (fun s i => add_instance cfg r53 s i region) st)

/-- Ec2Inventory.get_rds_instances_by_region: the body runs only under
`if conn:`, so a None connection silently leaves the state unchanged
and the run continues; a BotoServerError prints and sys.exit(1)s. -/
def get_rds_instances_by_region (cloud : Cloud) (st : AggState) (region : String) :
    Option AggState :=
  match cloud.rds region with
  | Conn.noConn => some st
  | Conn.serverError => none
  | Conn.ok insts => some (insts.foldl (fun s i => add_rds_instance s i region) st)

/-- The region loop of do_api_calls_update_cache: for each configured
region run compute then database discovery, propagating a fatal
abort. -/
def refresh_regions (cloud : Cloud) (cfg : Config)
    (r53 : List (String × List String)) (st : AggState) : Option AggState :=
  cfg.regions.foldl
    (fun acc region =>
      (acc.bind fun s => get_instances_by_region cloud cfg r53 s region).bind
        fun s => get_rds_instances_by_region cloud s region)
    (some st)

/-- Ec2Inventory.do_api_calls_update_cache: run the region loop, then
write the inventory payload (to the tags path or the cache path — the
content function is the same) and the index file, both through
write_to_cache and hence json_format_dict.  The result carries the
final state and the two written JSON values (payload, index).  The
Route53 record fetch at the top is modelled by the `r53` argument. -/
def do_api_calls_update_cache (cloud : Cloud) (cfg : Config)
    (r53 : List (String × List String)) (st : AggState) :
    Option (AggState × JVal × JVal) :=
  (refresh_regions cloud cfg r53 st).map fun s =>
    (s, write_to_cache cfg.tags_only (invToJ s.inventory),
        write_to_cache cfg.tags_only (indexToJ s.index))

/-- Drop leading whitespace characters from a character list. -/
def dropSpaces : List Char → List Char
  | [] => []
  | c :: t => if c.isWhitespace then dropSpaces t else c :: t

/-- Python str.strip(): remove whitespace from both ends. -/
def strip (s : String) : String :=
  ⟨((dropSpaces s.data).reverse |> dropSpaces).reverse⟩

/-- The attribute-flattening loop of get_host_info: ec2_-named keys
with type-directed coercion — ints and bools pass through, strings
are stripped, None becomes "", a region value is reduced to its name
(only under the key ec2_region), a tags value expands into ec2_tag_
keys, a groups value becomes the two comma-joined lists, anything
else is dropped. -/
def flatten_instance_vars (attrs : List (String × AttrVal)) : List (String × JVal) :=
  attrs.foldl
    (fun acc p =>
      let key := to_safe ("ec2_" ++ p.1)
      match p.2 with
      | AttrVal.vInt i => setKey acc key (JVal.int i)
      | AttrVal.vBool b => setKey acc key (JVal.bool b)
      | AttrVal.vStr s => setKey acc key (JVal.str (strip s))
      | AttrVal.vNone => setKey acc key (JVal.str "")
      | AttrVal.vRegion name => if key == "ec2_region" then setKey acc key (JVal.str name) else acc
      | AttrVal.vTags ts =>
        if key == "ec2_tags" then
          ts.foldl (fun a kv => setKey a (to_safe ("ec2_tag_" ++ kv.1)) (JVal.str kv.2)) acc
        else acc
      | AttrVal.vGroups gs =>
        if key == "ec2_groups" then
          setKey
            (setKey acc "ec2_security_group_ids"
              (JVal.str (String.intercalate "," (gs.map SecGroup.id))))
            "ec2_security_group_names"
            (JVal.str (String.intercalate "," (gs.map SecGroup.name)))
        else acc
      | AttrVal.vOther => acc)
    []

/-- The index-hit tail of get_host_info: read (region, id) from the
index, fetch the live record through Ec2Inventory.get_instance (the
EC2 path — there is no RDS fetch), and serialize the flattened
attributes.  `count` threads the number of do_api_calls refreshes the
lookup performed. -/
def host_detail (cloud : Cloud) (cfg : Config) (count : Nat) (idx : Idx) (host : String) :
    Option (Nat × JVal) :=
  match lookup idx host with
  | none => none
  | some (region, iid) =>
    match cloud.get_instance region iid with
    | none => none
    | some attrs => some (count, json_format_dict cfg.tags_only (flatten_instance_vars attrs))

/-- The tail of get_host_info once the index to consult is loaded:
serve a hit directly (zero refreshes); on a miss run one refresh
(do_api_calls_update_cache; its cache-file writes do not affect the
returned data, so its state part refresh_regions is used) against the
current state and retry once; a still-absent host yields
json_format_dict of the empty dict. -/
def get_host_info_loaded (cloud : Cloud) (cfg : Config)
    (r53 : List (String × List String)) (st : AggState)
    (idx : Idx) (host : String) : Option (Nat × JVal) :=
  if hasKey idx host then host_detail cloud cfg 0 idx host
  else
    match refresh_regions cloud cfg r53 { st with index := idx } with
    | none => none
    | some st2 =>
      if hasKey st2.index host then host_detail cloud cfg 1 st2.index host
      else some (1, json_format_dict cfg.tags_only [])

/-- Ec2Inventory.get_host_info: load the index from cache when the
in-memory index is empty (a missing cache file raises — result
`none`), then look the host up, refreshing at most once.  The Nat in
the result is the number of refreshes performed. -/
def get_host_info (cloud : Cloud) (cfg : Config)
    (r53 : List (String × List String)) (st : AggState)
    (cachedIndex : Option Idx) (host : String) : Option (Nat × JVal) :=
  match (if st.index.length = 0 then cachedIndex else some st.index) with
  | none => none
  | some idx => get_host_info_loaded cloud cfg r53 st idx host

/-- The on-disk cache state is_cache_valid inspects: existence and
mtime of the two payload files and existence of the index file.
Times are modelled as integers (only their linear order is used). -/
structure CacheFiles where
  cacheIsFile : Bool
  cacheMtime : Int
  tagsIsFile : Bool
  tagsMtime : Int
  indexIsFile : Bool

/-- Ec2Inventory.is_cache_valid: pick the payload file by the
tags_only flag; valid only when that file exists, its mtime plus
cache_max_age exceeds the current time, and the index file exists. -/
def is_cache_valid (tags_only : Bool) (fs : CacheFiles) (cache_max_age now : Int) : Bool :=
  if (if tags_only then fs.tagsIsFile else fs.cacheIsFile) then
    if (if tags_only then fs.tagsMtime else fs.cacheMtime) + cache_max_age > now then
      fs.indexIsFile
    else false
  else false

/-! Concrete inputs used by the witnesses and counterexamples. -/

/-- The empty aggregation state (fresh Ec2Inventory). -/
def st0 : AggState := { inventory := [], index := [] }

/-- A plain configuration: one region, public-address destination,
Route53 off, tags_only off. -/
def cfg_plain : Config :=
  { destination_variable := "ip_address"
    vpc_destination_variable := "private_ip_address"
    route53_enabled := false
    regions := ["us-east-1"]
    tags_only := false }

/-- The plain configuration with the tags_only option set. -/
def cfg_tags : Config := { cfg_plain with tags_only := true }

/-- A running compute record at 1.2.3.4 with no key, groups or tags. -/
def inst1 : Ec2Instance :=
  { state := "running"
    subnet_id := none
    attr := fun a => if a == "ip_address" then some "1.2.3.4" else none
    id := "i-123"
    placement := "us-east-1a"
    instance_type := "t2.micro"
    key_name := none
    groups := []
    tags := [] }

/-- A stopped compute record. -/
def inst_stopped : Ec2Instance := { inst1 with state := "stopped" }

/-- A running compute record none of whose address attributes is set. -/
def inst_noaddr : Ec2Instance := { inst1 with attr := fun _ => none }

/-- An available database record at db.example.com. -/
def rinst1 : RdsInstance :=
  { status := "available"
    endpoint := (some "db.example.com", 3306)
    id := "db-1"
    availability_zone := "us-east-1a"
    instance_class := "db.t2.micro"
    security_group := none
    engine := "mysql"
    parameter_group := { id := "pg-1", name := "default.mysql5.6" } }

/-- A database record that is not available. -/
def rinst_stopped : RdsInstance := { rinst1 with status := "stopped" }

/-- An available database record with an empty endpoint address. -/
def rinst_noaddr : RdsInstance := { rinst1 with endpoint := (some "", 0) }

/-- A provider where every region lists nothing. -/
def cloud_ok_empty : Cloud :=
  { ec2 := fun _ => Conn.ok []
    rds := fun _ => Conn.ok []
    get_instance := fun _ _ => none }

/-- A provider whose EC2 connection attempt returns None. -/
def cloud_ec2_down : Cloud := { cloud_ok_empty with ec2 := fun _ => Conn.noConn }

/-- A provider whose RDS connection attempt returns None. -/
def cloud_rds_down : Cloud := { cloud_ok_empty with rds := fun _ => Conn.noConn }

/-- A provider whose RDS calls raise a server error. -/
def cloud_rds_err : Cloud := { cloud_ok_empty with rds := fun _ => Conn.serverError }

/-- A provider listing exactly inst1 in every region. -/
def cloud_one : Cloud := { cloud_ok_empty with ec2 := fun _ => Conn.ok [inst1] }

/-- A single-instance fetch returning one string attribute. -/
def fetch1 : String → String → Option (List (String × AttrVal)) :=
  fun _ _ => some [("id", AttrVal.vStr " db-host ")]

/-- Two RDS listing environments that differ everywhere. -/
def rdsA : String → Conn RdsInstance := fun _ => Conn.noConn

/-- Second RDS listing environment for the independence check. -/
def rdsB : String → Conn RdsInstance := fun _ => Conn.serverError

/-- Cache files: fresh payload at mtime 0, index present. -/
def fs_ok : CacheFiles :=
  { cacheIsFile := true, cacheMtime := 0, tagsIsFile := false, tagsMtime := 0,
    indexIsFile := true }

/-- Cache files: fresh payload at mtime 0, index file missing. -/
def fs_noidx : CacheFiles := { fs_ok with indexIsFile := false }

/-- An inventory dict holding a first_in_tag_ group, as add_instance
creates for the first endpoint carrying a tag. -/
def inv_first_tag : List (String × JVal) :=
  [("first_in_tag_env_prod", JVal.arr [JVal.str "1.2.3.4"])]

/-! Helper lemmas about the dict operations. -/

/-- Membership test and lookup agree. -/
theorem hasKey_eq_isSome {α : Type} (d : List (String × α)) (k : String) :
    hasKey d k = (lookup d k).isSome := by
  induction d with
  | nil => rfl
  | cons p t ih =>
    by_cases hpk : p.1 = k
    · simp [hasKey, lookup, hpk]
    · simp [hasKey, lookup, hpk, ih]

/-- Effect on lookup of updating the value at a key in place. -/
theorem lookup_mapAdjust {α : Type} (g : α → α) (d : List (String × α)) (k : String) :
    lookup (d.map (fun p => if p.1 = k then (p.1, g p.2) else p)) k
      = (lookup d k).map g := by
  induction d with
  | nil => rfl
  | cons p t ih =>
    by_cases hpk : p.1 = k
    · simp [lookup, hpk]
    · simp [lookup, hpk, ih]

/-- Appending a fresh entry makes it the lookup result. -/
theorem lookup_append_fresh {α : Type} (d : List (String × α)) (k : String) (v : α)
    (h : hasKey d k = false) : lookup (d ++ [(k, v)]) k = some v := by
  induction d with
  | nil => simp [lookup]
  | cons p t ih =>
    by_cases hpk : p.1 = k
    · simp [hasKey, hpk] at h
    · simp only [hasKey] at h
      rw [if_neg hpk] at h
      simpa [lookup, hpk] using ih h

/-- Writing a key with dict assignment makes its value the lookup
result, whether or not the key was present. -/
theorem lookup_setKey {α : Type} (d : List (String × α)) (k : String) (v : α) :
    lookup (setKey d k v) k = some v := by
  by_cases h : hasKey d k = true
  · have h2 := lookup_mapAdjust (fun _ => v) d k
    unfold setKey
    rw [if_pos h, h2]
    rw [hasKey_eq_isSome] at h
    obtain ⟨w, hw⟩ := Option.isSome_iff_exists.mp h
    rw [hw]; rfl
  · simp only [Bool.not_eq_true] at h
    unfold setKey
    rw [if_neg (by simp [h])]
    exact lookup_append_fresh d k v h

/-- Dict membership of the head key. -/
theorem hasKey_of_lookup {α : Type} {d : List (String × α)} {k : String} {v : α}
    (h : lookup d k = some v) : hasKey d k = true := by
  rw [hasKey_eq_isSome, h]; rfl

/-- Dict assignment never produces the empty dict. -/
theorem setKey_ne_nil {α : Type} (d : List (String × α)) (k : String) (v : α) :
    (setKey d k v).length ≠ 0 := by
  by_cases h : hasKey d k = true
  · unfold setKey
    rw [if_pos h]
    cases d with
    | nil => simp [hasKey] at h
    | cons p t => simp
  · unfold setKey
    rw [if_neg h]
    simp

/-- Pushing onto a present key appends to its list. -/
theorem lookup_push {d : Inv} {k e : String} {vs : List String}
    (h : lookup d k = some vs) : lookup (push d k e) k = some (vs ++ [e]) := by
  have hk : hasKey d k = true := hasKey_of_lookup h
  have h2 := lookup_mapAdjust (fun l => l ++ [e]) d k
  unfold push
  rw [if_pos hk, h2, h]
  rfl

/-- Pushing onto an absent key creates the singleton list. -/
theorem lookup_push_fresh {d : Inv} {k e : String} (h : hasKey d k = false) :
    lookup (push d k e) k = some [e] := by
  unfold push
  rw [if_neg (by simp [h])]
  exact lookup_append_fresh d k [e] h

/-- Folding push over a list of elements appends them in call order. -/
theorem lookup_foldl_push (k : String) (es : List String) :
    ∀ (d : Inv) (vs : List String), lookup d k = some vs →
      lookup (es.foldl (fun m x => push m k x) d) k = some (vs ++ es) := by
  induction es with
  | nil => intro d vs h; simpa using h
  | cons x t ih =>
    intro d vs h
    have h1 : lookup (push d k x) k = some (vs ++ [x]) := lookup_push h
    simpa using ih (push d k x) (vs ++ [x]) h1

/-- keep_first is the identity once the key is present. -/
theorem keep_first_present {d : Inv} {k e : String} (h : hasKey d k = true) :
    keep_first d k e = d := by
  unfold keep_first
  rw [if_pos h]

/-- Folding keep_first over any further writes to a present key is the
identity on the whole dict. -/
theorem foldl_keep_first_frozen (k : String) (es : List String) (d : Inv)
    (h : hasKey d k = true) :
    es.foldl (fun m x => keep_first m k x) d = d := by
  induction es with
  | nil => rfl
  | cons x t ih =>
    rw [List.foldl_cons, keep_first_present h]
    exact ih

/-- One character of to_safe is idempotent. -/
theorem safeChar_idem (c : Char) : safeChar (safeChar c) = safeChar c := by
  by_cases h : ('A' ≤ c ∧ c ≤ 'Z') ∨ ('a' ≤ c ∧ c ≤ 'z') ∨ ('0' ≤ c ∧ c ≤ '9') ∨ c = '-'
  · have h1 : safeChar c = c := if_pos h
    rw [h1]; exact h1
  · have h1 : safeChar c = '_' := if_neg h
    rw [h1]; decide

/-- Claim C8 — for every input string, to_safe produces only characters
of the class [A-Za-z0-9_-], preserves the length of the input, and is
idempotent. -/
theorem to_safe_spec (w : String) :
    ((to_safe w).data.all okChar) = true ∧
    (to_safe w).length = w.length ∧
    to_safe (to_safe w) = to_safe w := by
  refine ⟨?_, ?_, ?_⟩
  · rw [List.all_eq_true]
    intro c hc
    have hdata : (to_safe w).data = w.data.map safeChar := rfl
    rw [hdata] at hc
    simp only [List.mem_map] at hc
    obtain ⟨a, _, rfl⟩ := hc
    by_cases h : ('A' ≤ a ∧ a ≤ 'Z') ∨ ('a' ≤ a ∧ a ≤ 'z') ∨ ('0' ≤ a ∧ a ≤ '9') ∨ a = '-'
    · have h1 : safeChar a = a := if_pos h
      rw [h1]
      exact decide_eq_true (by tauto)
    · have h1 : safeChar a = '_' := if_neg h
      rw [h1]; decide
  · show (w.data.map safeChar).length = w.data.length
    simp
  · show to_safe ⟨w.data.map safeChar⟩ = (⟨w.data.map safeChar⟩ : String)
    unfold to_safe
    have : ∀ l : List Char, (l.map safeChar).map safeChar = l.map safeChar := by
      intro l
      induction l with
      | nil => rfl
      | cons c t ih => simp [safeChar_idem, ih]
    exact congrArg String.mk (this w.data)

/-- Claim C9 — keep_first has create-only-if-absent semantics: after
writing a key any number of further times the dict still holds only
the value from the first write (so a second record with the same tag
leaves the first_in_tag_ group unchanged), while push on the same key
N times yields the N elements in call order. -/
theorem keep_first_push_semantics (k e : String) (rest : List String) :
    rest.foldl (fun m x => keep_first m k x) (keep_first ([] : Inv) k e) = [(k, [e])] ∧
    lookup ((e :: rest).foldl (fun m x => push m k x) ([] : Inv)) k = some (e :: rest) := by
  have hkf : keep_first ([] : Inv) k e = [(k, [e])] := rfl
  constructor
  · rw [hkf]
    exact foldl_keep_first_frozen k rest [(k, [e])] (by simp [hasKey])
  · rw [List.foldl_cons]
    have h1 : lookup (push ([] : Inv) k e) k = some [e] :=
      lookup_push_fresh (by rfl)
    simpa using lookup_foldl_push k rest (push [] k e) [e] h1

/-- Claim C6 — a compute record whose state is not "running", and a
database record whose status is not "available", leave both the
inventory and the index completely unchanged. -/
theorem nonrunning_unchanged (cfg : Config) (r53 : List (String × List String))
    (st : AggState) (inst : Ec2Instance) (rinst : RdsInstance) (region : String) :
    (inst.state ≠ "running" → add_instance cfg r53 st inst region = st) ∧
    (rinst.status ≠ "available" → add_rds_instance st rinst region = st) := by
  constructor
  · intro h
    have hb : (inst.state != "running") = true := by simpa using h
    simp [add_instance, hb]
  · intro h
    have hb : (rinst.status != "available") = true := by simpa using h
    simp [add_rds_instance, hb]

/-- Witness for C6 at a stopped compute record and a stopped database
record: both adds leave the empty state unchanged. -/
theorem nonrunning_unchanged_witness :
    add_instance cfg_plain [] st0 inst_stopped "us-east-1" = st0 ∧
    add_rds_instance st0 rinst_stopped "us-east-1" = st0 :=
  ⟨(nonrunning_unchanged cfg_plain [] st0 inst_stopped rinst_stopped "us-east-1").1
      (by decide),
   (nonrunning_unchanged cfg_plain [] st0 inst_stopped rinst_stopped "us-east-1").2
      (by decide)⟩

/-- Claim C7 — a record whose resolved destination address is falsy
(absent attribute value or empty string) is silently dropped: both
inventory and index are unchanged, for the compute path and for the
database path. -/
theorem unaddressable_unchanged (cfg : Config) (r53 : List (String × List String))
    (st : AggState) (inst : Ec2Instance) (rinst : RdsInstance) (region : String) :
    (truthy (resolve_dest cfg inst) = false → add_instance cfg r53 st inst region = st) ∧
    (truthy rinst.endpoint.1 = false → add_rds_instance st rinst region = st) := by
  constructor
  · intro h
    cases hs : inst.state != "running" with
    | true => simp [add_instance, hs]
    | false => simp [add_instance, hs, h]
  · intro h
    cases hs : rinst.status != "available" with
    | true => simp [add_rds_instance, hs]
    | false => simp [add_rds_instance, hs, h]

/-- Witness for C7 at a running compute record with no address
attribute set and an available database record with an empty endpoint
address: both adds leave the empty state unchanged. -/
theorem unaddressable_unchanged_witness :
    add_instance cfg_plain [] st0 inst_noaddr "us-east-1" = st0 ∧
    add_rds_instance st0 rinst_noaddr "us-east-1" = st0 :=
  ⟨(unaddressable_unchanged cfg_plain [] st0 inst_noaddr rinst_noaddr "us-east-1").1
      (by decide),
   (unaddressable_unchanged cfg_plain [] st0 inst_noaddr rinst_noaddr "us-east-1").2
      (by decide)⟩

/-- Counterexample to claim C1 as stated: a null RDS connection for a
configured region does not abort the run — get_rds_instances_by_region
silently returns with the state unchanged. -/
theorem rds_noconn_counterexample :
    cloud_rds_down.rds "us-east-1" = Conn.noConn ∧
    get_rds_instances_by_region cloud_rds_down st0 "us-east-1" ≠ none ∧
    get_rds_instances_by_region cloud_rds_down st0 "us-east-1" = some st0 := by
  refine ⟨rfl, ?_, rfl⟩
  intro h
  rw [show get_rds_instances_by_region cloud_rds_down st0 "us-east-1" = some st0 from rfl] at h
  exact Option.noConfusion h

/-- Claim C1 (amended) — compute discovery aborts the run fatally on a
null connection and on a provider server error; database discovery
aborts fatally only on a server error, while a null RDS connection
silently skips the region's databases and the run continues. -/
theorem region_failure_handling (cloud : Cloud) (cfg : Config)
    (r53 : List (String × List String)) (st : AggState) (region : String) :
    (cloud.ec2 region = Conn.noConn →
      get_instances_by_region cloud cfg r53 st region = none) ∧
    (cloud.ec2 region = Conn.serverError →
      get_instances_by_region cloud cfg r53 st region = none) ∧
    (cloud.rds region = Conn.noConn →
      get_rds_instances_by_region cloud st region = some st) ∧
    (cloud.rds region = Conn.serverError →
      get_rds_instances_by_region cloud st region = none) := by
  refine ⟨fun h => ?_, fun h => ?_, fun h => ?_, fun h => ?_⟩ <;>
    simp [get_instances_by_region, get_rds_instances_by_region, h]

/-- Witness for the amended C1 at concrete providers with a failed EC2
connection, a failed RDS connection, and an RDS server error. -/
theorem region_failure_handling_witness :
    get_instances_by_region cloud_ec2_down cfg_plain [] st0 "us-east-1" = none ∧
    get_rds_instances_by_region cloud_rds_down st0 "us-east-1" = some st0 ∧
    get_rds_instances_by_region cloud_rds_err st0 "us-east-1" = none :=
  ⟨(region_failure_handling cloud_ec2_down cfg_plain [] st0 "us-east-1").1 rfl,
   (region_failure_handling cloud_rds_down cfg_plain [] st0 "us-east-1").2.2.1 rfl,
   (region_failure_handling cloud_rds_err cfg_plain [] st0 "us-east-1").2.2.2 rfl⟩

/-- Claim C4 — when the selected payload file exists with mtime t,
is_cache_valid is true exactly when now is strictly before t plus the
max age and the index file exists; a missing index file alone forces
invalidity. -/
theorem is_cache_valid_spec (tags_only : Bool) (fs : CacheFiles) (age now : Int)
    (hfile : (if tags_only then fs.tagsIsFile else fs.cacheIsFile) = true) :
    (is_cache_valid tags_only fs age now = true ↔
      (now < (if tags_only then fs.tagsMtime else fs.cacheMtime) + age ∧
        fs.indexIsFile = true)) ∧
    (fs.indexIsFile = false → is_cache_valid tags_only fs age now = false) := by
  constructor
  · unfold is_cache_valid
    rw [if_pos hfile]
    by_cases hgt : (if tags_only then fs.tagsMtime else fs.cacheMtime) + age > now
    · rw [if_pos hgt]
      exact ⟨fun hi => ⟨hgt, hi⟩, fun hi => hi.2⟩
    · rw [if_neg hgt]
      exact ⟨fun hf => absurd hf (by simp), fun hi => absurd hi.1 hgt⟩
  · intro hidx
    unfold is_cache_valid
    rw [if_pos hfile]
    by_cases hgt : (if tags_only then fs.tagsMtime else fs.cacheMtime) + age > now
    · rw [if_pos hgt]; exact hidx
    · rw [if_neg hgt]

/-- Witness for C4: with a fresh payload (mtime 0, max age 100, now 50)
validity holds with the index present and fails with it missing. -/
theorem is_cache_valid_spec_witness :
    (is_cache_valid false fs_ok 100 50 = true ↔
      ((50 : Int) < fs_ok.cacheMtime + 100 ∧ fs_ok.indexIsFile = true)) ∧
    is_cache_valid false fs_noidx 100 50 = false :=
  ⟨(is_cache_valid_spec false fs_ok 100 50 rfl).1,
   (is_cache_valid_spec false fs_noidx 100 50 rfl).2 rfl⟩

/-- Claim C2 (code bug) — the refresh of one region discovering one
running instance at 1.2.3.4: without tags_only the written index file
is the endpoint-to-[region, resource id] mapping, but with tags_only
set the index file receives the json_format_dict key filter and
becomes the empty JSON array, losing the mapping the loader
(load_index_from_cache and the dict lookup in get_host_info)
expects. -/
theorem index_cache_tags_only_bug :
    (do_api_calls_update_cache cloud_one cfg_plain [] st0).map (fun r => r.2.2)
      = some (JVal.obj [("1.2.3.4", JVal.arr [JVal.str "us-east-1", JVal.str "i-123"])]) ∧
    (do_api_calls_update_cache cloud_one cfg_tags [] st0).map (fun r => r.2.2)
      = some (JVal.arr []) :=
  ⟨rfl, rfl⟩

/-- Counterexample to claim C3 as stated: the tags-only projection of
a dict holding the group first_in_tag_env_prod keeps that group even
though its name does not start with "tag_" — the filter tests
substring containment, not a prefix. -/
theorem tags_filter_counterexample :
    json_format_dict true inv_first_tag = JVal.arr [JVal.str "first_in_tag_env_prod"] ∧
    ("tag_".data.isPrefixOf "first_in_tag_env_prod".data) = false :=
  ⟨rfl, rfl⟩

/-- Claim C3 (amended) — the tags-only projection contains exactly the
group names containing "tag_" as a substring (hence every tag_ group
and also the first_in_tag_ groups), and no name without that
substring. -/
theorem tags_only_projection_spec (data : List (String × JVal)) (k : String) :
    JVal.str k ∈ (match json_format_dict true data with
      | JVal.arr es => es
      | _ => []) ↔ (k ∈ data.map Prod.fst ∧ hasSub "tag_" k = true) := by
  show JVal.str k ∈ ((data.map Prod.fst).filter (fun x => hasSub "tag_" x)).map JVal.str ↔ _
  constructor
  · intro h
    rw [List.mem_map] at h
    obtain ⟨a, ha, he⟩ := h
    injection he with he'
    subst he'
    rw [List.mem_filter] at ha
    exact ⟨ha.1, ha.2⟩
  · intro h
    rw [List.mem_map]
    exact ⟨k, List.mem_filter.mpr ⟨h.1, h.2⟩, rfl⟩

/-- Counterexample to claim C5 as stated: with the tags-only option
set, a host absent even after the one refresh yields the empty JSON
array (json.dumps of the filtered key list), not an empty JSON
object. -/
theorem host_absent_tags_only_counterexample :
    get_host_info cloud_ok_empty cfg_tags [] st0 (some []) "h" = some (1, JVal.arr []) ∧
    JVal.arr [] ≠ JVal.obj [] := by
  refine ⟨rfl, ?_⟩
  intro h
  exact JVal.noConfusion h

/-- Claim C5 (amended) — when the requested host is absent from the
loaded index, exactly one refresh runs and the lookup is retried
once; if the host is still absent the result is the empty
serialization (the empty JSON object, or the empty JSON array when
tags-only is set), not an error. -/
theorem host_lookup_refresh_spec (cloud : Cloud) (cfg : Config)
    (r53 : List (String × List String)) (st : AggState) (cached : Idx)
    (st2 : AggState) (host : String)
    (h1 : hasKey (if st.index.length = 0 then cached else st.index) host = false)
    (h2 : refresh_regions cloud cfg r53
        { st with index := if st.index.length = 0 then cached else st.index } = some st2)
    (h3 : hasKey st2.index host = false) :
    get_host_info cloud cfg r53 st (some cached) host
      = some (1, if cfg.tags_only then JVal.arr [] else JVal.obj []) := by
  have hred : get_host_info cloud cfg r53 st (some cached) host
      = get_host_info_loaded cloud cfg r53 st
          (if st.index.length = 0 then cached else st.index) host := by
    unfold get_host_info
    rw [← apply_ite Option.some (st.index.length = 0) cached st.index]
  rw [hred]
  unfold get_host_info_loaded
  rw [if_neg (by rw [h1]; exact Bool.false_ne_true), h2]
  show (if hasKey st2.index host then host_detail cloud cfg 1 st2.index host
        else some (1, json_format_dict cfg.tags_only [])) = _
  rw [if_neg (by rw [h3]; exact Bool.false_ne_true)]
  cases htags : cfg.tags_only <;> simp [json_format_dict, sortByKey]

/-- Witness for the amended C5: empty state, empty cached index, a
provider listing nothing — the lookup for "h" performs one refresh and
returns the empty object. -/
theorem host_lookup_refresh_spec_witness :
    get_host_info cloud_ok_empty cfg_plain [] st0 (some []) "h"
      = some (1, JVal.obj []) :=
  host_lookup_refresh_spec cloud_ok_empty cfg_plain [] st0 [] st0 "h" rfl rfl rfl

/-- Claim C10 — an index entry written by add_rds_instance maps the
database endpoint to (region, database id), and a host-detail lookup
on that endpoint goes through the compute fetch path
(Ec2Inventory.get_instance, the ec2f component): the result is
whatever the EC2 fetch returns at (region, id) and is independent of
the RDS side of the provider — the database record's own attributes
are never returned. -/
theorem rds_endpoint_ec2_fetch_path
    (ec2f : String → String → Option (List (String × AttrVal)))
    (ec2c : String → Conn Ec2Instance) (rds1 rds2 : String → Conn RdsInstance)
    (cfg : Config) (r53 : List (String × List String)) (st : AggState)
    (rinst : RdsInstance) (region d : String)
    (havail : rinst.status = "available")
    (hdest : rinst.endpoint.1 = some d) (hne : d ≠ "") :
    lookup (add_rds_instance st rinst region).index d = some (region, rinst.id) ∧
    get_host_info ⟨ec2c, rds1, ec2f⟩ cfg r53 (add_rds_instance st rinst region) none d
      = (match ec2f region rinst.id with
         | none => none
         | some attrs =>
           some (0, json_format_dict cfg.tags_only (flatten_instance_vars attrs))) ∧
    get_host_info ⟨ec2c, rds1, ec2f⟩ cfg r53 (add_rds_instance st rinst region) none d
      = get_host_info ⟨ec2c, rds2, ec2f⟩ cfg r53 (add_rds_instance st rinst region) none d := by
  have hc1 : (rinst.status != "available") = false := by rw [havail]; decide
  have hc2 : truthy rinst.endpoint.1 = true := by
    rw [hdest]
    simpa [truthy] using hne
  have hidx : (add_rds_instance st rinst region).index
      = setKey st.index d (region, rinst.id) := by
    unfold add_rds_instance
    rw [if_neg (by simp [hc1]), if_neg (by simp [hc2]), hdest]
    rfl
  have hlen : ¬((add_rds_instance st rinst region).index.length = 0) := by
    rw [hidx]
    exact setKey_ne_nil st.index d (region, rinst.id)
  have hk : hasKey (add_rds_instance st rinst region).index d = true := by
    rw [hidx]
    exact hasKey_of_lookup (lookup_setKey st.index d (region, rinst.id))
  have key : ∀ rdsF : String → Conn RdsInstance,
      get_host_info ⟨ec2c, rdsF, ec2f⟩ cfg r53 (add_rds_instance st rinst region) none d
        = (match ec2f region rinst.id with
           | none => none
           | some attrs =>
             some (0, json_format_dict cfg.tags_only (flatten_instance_vars attrs))) := by
    intro rdsF
    have hred : get_host_info ⟨ec2c, rdsF, ec2f⟩ cfg r53 (add_rds_instance st rinst region) none d
        = get_host_info_loaded ⟨ec2c, rdsF, ec2f⟩ cfg r53 (add_rds_instance st rinst region)
            (add_rds_instance st rinst region).index d := by
      unfold get_host_info
      rw [if_neg hlen]
    rw [hred]
    unfold get_host_info_loaded
    rw [if_pos hk]
    unfold host_detail
    rw [hidx, lookup_setKey]
  refine ⟨?_, key rds1, (key rds1).trans (key rds2).symm⟩
  rw [hidx]
  exact lookup_setKey st.index d (region, rinst.id)

/-- Witness for C10: the empty state after adding one available
database record; the detail lookup on db.example.com returns the data
of the EC2 fetch and does not change when the RDS side of the
provider changes. -/
theorem rds_endpoint_ec2_fetch_path_witness :
    lookup (add_rds_instance st0 rinst1 "us-east-1").index "db.example.com"
      = some ("us-east-1", "db-1") ∧
    get_host_info ⟨cloud_ok_empty.ec2, rdsA, fetch1⟩ cfg_plain []
        (add_rds_instance st0 rinst1 "us-east-1") none "db.example.com"
      = some (0, JVal.obj [("ec2_id", JVal.str "db-host")]) ∧
    get_host_info ⟨cloud_ok_empty.ec2, rdsA, fetch1⟩ cfg_plain []
        (add_rds_instance st0 rinst1 "us-east-1") none "db.example.com"
      = get_host_info ⟨cloud_ok_empty.ec2, rdsB, fetch1⟩ cfg_plain []
          (add_rds_instance st0 rinst1 "us-east-1") none "db.example.com" := by
  obtain ⟨w1, w2, w3⟩ :=
    rds_endpoint_ec2_fetch_path fetch1 cloud_ok_empty.ec2 rdsA rdsB cfg_plain [] st0
      rinst1 "us-east-1" "db.example.com" rfl rfl (by decide)
  refine ⟨w1, ?_, w3⟩
  rw [w2]
  rfl

end EC2Inv
